import Mathlib

/-!
Verification of the FB-PIC simulation driver (`fbpic/main.py`).

The driver is embedded shallowly:

* `adapt_to_grid` is translated directly from the pure Python function of
  the same name; machine floats become exact rationals and the two numpy
  failure modes (indexing a too-short array, taking the min of an empty
  selection) become `Option.none`.
* `Simulation.step` is modelled as a state-and-trace transformer: the
  mutable scalar state (`time`, `iteration`, ...) is threaded explicitly,
  and every call into a collaborator (fields container, particle species,
  moving window, diagnostics) is recorded as an event in an output trace,
  in the order the Python code performs the calls.
* `Simulation.init` models the constructor: grid alignment of the loading
  bounds, construction of the two species, and the initial charge
  deposition, again with collaborator calls recorded as a trace.
-/

/-! ### Physical constants (scipy.constants values, as exact rationals) -/

namespace scipy_constants

/-- Elementary charge `e` (CODATA value used by scipy), in coulomb. -/
def e : ℚ := 1602176634 / 10 ^ 28

/-- Electron mass `m_e`, in kilogram. -/
def m_e : ℚ := 91093837015 / 10 ^ 41

/-- Proton mass `m_p`, in kilogram. -/
def m_p : ℚ := 167262192369 / 10 ^ 38

end scipy_constants

/-! ### Minimum / maximum of a nonempty list, as the numpy `min`/`max` calls -/

/-- Minimum of `a :: l` (numpy `x.min()` on a nonempty array). -/
def lmin (a : ℚ) : List ℚ → ℚ
  | [] => a
  | b :: l => lmin (min a b) l

/-- Maximum of `a :: l` (numpy `x.max()` on a nonempty array). -/
def lmax (a : ℚ) : List ℚ → ℚ
  | [] => a
  | b :: l => lmax (max a b) l

theorem lmin_le (a : ℚ) (l : List ℚ) : lmin a l ≤ a := by
  induction l generalizing a with
  | nil => exact le_refl a
  | cons b l ih => exact le_trans (ih (min a b)) (min_le_left a b)

theorem lmin_le_mem_aux (l : List ℚ) : ∀ a b : ℚ, b ∈ l → lmin a l ≤ b := by
  induction l with
  | nil => intro a b hb; cases hb
  | cons c l ih =>
      intro a b hb
      rcases List.mem_cons.mp hb with h | h
      · subst h
        exact le_trans (lmin_le (min a b) l) (min_le_right a b)
      · exact ih (min a c) b h

theorem lmin_le_mem (a : ℚ) (l : List ℚ) (b : ℚ) (hb : b ∈ l) : lmin a l ≤ b :=
  lmin_le_mem_aux l a b hb

theorem lmin_le_mem' (a : ℚ) (l : List ℚ) (b : ℚ) (hb : b ∈ a :: l) :
    lmin a l ≤ b := by
  rcases List.mem_cons.mp hb with h | h
  · rw [h]; exact lmin_le a l
  · exact lmin_le_mem a l b h

theorem lmin_mem (a : ℚ) (l : List ℚ) : lmin a l ∈ a :: l := by
  induction l generalizing a with
  | nil => exact List.mem_singleton.mpr rfl
  | cons b l ih =>
      have h := ih (min a b)
      rcases List.mem_cons.mp h with h' | h'
      · rcases min_choice a b with hm | hm
        · exact List.mem_cons.mpr (Or.inl (h'.trans hm))
        · exact List.mem_cons.mpr (Or.inr (List.mem_cons.mpr (Or.inl (h'.trans hm))))
      · exact List.mem_cons.mpr (Or.inr (List.mem_cons.mpr (Or.inr h')))

theorem le_lmax (a : ℚ) (l : List ℚ) : a ≤ lmax a l := by
  induction l generalizing a with
  | nil => exact le_refl a
  | cons b l ih => exact le_trans (le_max_left a b) (ih (max a b))

theorem mem_le_lmax_aux (l : List ℚ) : ∀ a b : ℚ, b ∈ l → b ≤ lmax a l := by
  induction l with
  | nil => intro a b hb; cases hb
  | cons c l ih =>
      intro a b hb
      rcases List.mem_cons.mp hb with h | h
      · subst h
        exact le_trans (le_max_right a b) (le_lmax (max a b) l)
      · exact ih (max a c) b h

theorem mem_le_lmax (a : ℚ) (l : List ℚ) (b : ℚ) (hb : b ∈ l) : b ≤ lmax a l :=
  mem_le_lmax_aux l a b hb

theorem mem_le_lmax' (a : ℚ) (l : List ℚ) (b : ℚ) (hb : b ∈ a :: l) :
    b ≤ lmax a l := by
  rcases List.mem_cons.mp hb with h | h
  · rw [h]; exact le_lmax a l
  · exact mem_le_lmax a l b h

theorem lmax_mem (a : ℚ) (l : List ℚ) : lmax a l ∈ a :: l := by
  induction l generalizing a with
  | nil => exact List.mem_singleton.mpr rfl
  | cons b l ih =>
      have h := ih (max a b)
      rcases List.mem_cons.mp h with h' | h'
      · rcases max_choice a b with hm | hm
        · exact List.mem_cons.mpr (Or.inl (h'.trans hm))
        · exact List.mem_cons.mpr (Or.inr (List.mem_cons.mpr (Or.inl (h'.trans hm))))
      · exact List.mem_cons.mpr (Or.inr (List.mem_cons.mpr (Or.inr h')))

/-! ### `adapt_to_grid` (fbpic/main.py, lines 230-274)

Python:
```
xmin = x.min() ; xmax = x.max() ; dx = x[1] - x[0]
if p_xmin < xmin - 0.5*dx : p_xmin = xmin - 0.5*dx
if p_xmax > xmax + 0.5*dx : p_xmax = xmax + 0.5*dx
x_load = x[ ( x > p_xmin ) & ( x < p_xmax ) ]
p_xmin = x_load.min() - 0.5*dx
p_xmax = x_load.max() + 0.5*dx
Npx = len(x_load) * p_nx
return ( p_xmin, p_xmax, Npx )
```
A grid with fewer than two points makes `x[1]` (or `x.min()`) fail, and an
empty selection makes `x_load.min()` fail: both are `none` here. -/
def loadBounds (dx : ℚ) (p_nx : ℕ) : List ℚ → Option (ℚ × ℚ × ℕ)
  | [] => none
  | y :: ys =>
      some (lmin y ys - dx / 2, lmax y ys + dx / 2, (ys.length + 1) * p_nx)

/-- `adapt_to_grid(x, p_xmin, p_xmax, p_nx)` itself: clamp the requested
bounds against the box plus a half-cell margin, keep the grid points
strictly inside, and hand the surviving selection to `loadBounds`. -/
def adapt_to_grid (x : List ℚ) (p_xmin p_xmax : ℚ) (p_nx : ℕ) :
    Option (ℚ × ℚ × ℕ) :=
  match x with
  | x0 :: x1 :: rest =>
      let xmin := lmin x0 (x1 :: rest)
      let xmax := lmax x0 (x1 :: rest)
      let dx := x1 - x0
      let q_xmin := if p_xmin < xmin - dx / 2 then xmin - dx / 2 else p_xmin
      let q_xmax := if p_xmax > xmax + dx / 2 then xmax + dx / 2 else p_xmax
      loadBounds dx p_nx
        ((x0 :: x1 :: rest).filter (fun xi => decide (q_xmin < xi ∧ xi < q_xmax)))
  | _ => none

/-! ### Collaborator events

Every call the driver makes into a collaborator is recorded as one event.
Field names are the string tags used by `fbpic/main.py`. -/

/-- Field tags passed to the field container's methods. -/
inductive Fld
  | E | B | J | rho | rho_prev | rho_next
deriving DecidableEq

/-- One collaborator call made by the driver. -/
inductive Ev
  /-- `diag.write(self.iteration)` for the diagnostic with index `d`. -/
  | diagWrite (d : ℕ) (iter : ℕ)
  /-- `progression_bar(i_step, N)`. -/
  | progress (i N : ℕ)
  /-- `self.moving_win.move(fld, ptcl, self.p_nz, self.dt)`. -/
  | mwMove
  /-- `species.gather(fld.interp)` for species index `s`. -/
  | gather (s : ℕ)
  /-- `species.push_p()` for species index `s`. -/
  | pushP (s : ℕ)
  /-- `species.halfpush_x()` for species index `s`. -/
  | halfPushX (s : ℕ)
  /-- `fld.erase(f)`. -/
  | erase (f : Fld)
  /-- `species.deposit(fld.interp, f)` for species index `s`. -/
  | deposit (s : ℕ) (f : Fld)
  /-- `fld.divide_by_volume(f)`. -/
  | divideByVolume (f : Fld)
  /-- `self.moving_win.damp(fld.interp, f)`. -/
  | mwDamp (f : Fld)
  /-- `fld.interp2spect(f)`. -/
  | interp2spect (f : Fld)
  /-- `fld.filter_spect(f)`. -/
  | filterSpect (f : Fld)
  /-- `fld.correct_currents()`. -/
  | correctCurrents
  /-- `fld.push(ptcl_feedback)`. -/
  | fieldPush (feedback : Bool)
  /-- `fld.spect2interp(f)`. -/
  | spect2interp (f : Fld)
deriving DecidableEq

/-! ### Driver state (the scalar attributes of `Simulation`) -/

/-- The mutable scalar state of a `Simulation` object.  The fields and
particle containers themselves are collaborators recorded in the trace;
the driver keeps their count (`nspecies`), the diagnostics list (by index),
and whether a moving window has been attached (`moving_win`). -/
@[ext]
structure SimState where
  dt : ℚ
  p_nz : ℕ
  time : ℚ
  iteration : ℕ
  nspecies : ℕ
  diags : List ℕ
  moving_win : Option Unit
deriving DecidableEq

/-- The keyword options of `Simulation.step`, with their Python defaults. -/
structure StepOpts where
  ptcl_feedback : Bool := true
  correct_currents : Bool := true
  filter_currents : Bool := true
  move_positions : Bool := true
  move_momenta : Bool := true
  moving_window : Bool := true
deriving DecidableEq

/-- Events of a `for species in ptcl` loop (species in list order). -/
def forSpecies (n : ℕ) (f : ℕ → Ev) : List Ev :=
  (List.range n).map f

/-- Events of a conditional block: emitted only when the flag is true. -/
def condEvents (b : Bool) (l : List Ev) : List Ev :=
  if b then l else []

/-- One iteration of the `for i_step in xrange(N)` loop of
`Simulation.step` (fbpic/main.py lines 157-220): the collaborator calls it
makes, in source order, and the state update (`self.time += self.dt;
self.iteration += 1`) performed at its end. -/
def oneStep (opts : StepOpts) (i_step N : ℕ) (st : SimState) :
    SimState × List Ev :=
  ( { st with time := st.time + st.dt, iteration := st.iteration + 1 },
    st.diags.map (fun d => Ev.diagWrite d st.iteration)
    ++ [Ev.progress i_step N]
    ++ condEvents opts.moving_window [Ev.mwMove]
    ++ forSpecies st.nspecies Ev.gather
    ++ condEvents opts.move_momenta (forSpecies st.nspecies Ev.pushP)
    ++ condEvents opts.move_positions (forSpecies st.nspecies Ev.halfPushX)
    ++ [Ev.erase Fld.J]
    ++ forSpecies st.nspecies (fun s => Ev.deposit s Fld.J)
    ++ [Ev.divideByVolume Fld.J]
    ++ condEvents opts.moving_window [Ev.mwDamp Fld.J]
    ++ [Ev.interp2spect Fld.J]
    ++ condEvents opts.filter_currents [Ev.filterSpect Fld.J]
    ++ condEvents opts.move_positions (forSpecies st.nspecies Ev.halfPushX)
    ++ [Ev.erase Fld.rho]
    ++ forSpecies st.nspecies (fun s => Ev.deposit s Fld.rho)
    ++ [Ev.divideByVolume Fld.rho]
    ++ condEvents opts.moving_window [Ev.mwDamp Fld.rho]
    ++ [Ev.interp2spect Fld.rho_next]
    ++ condEvents opts.filter_currents [Ev.filterSpect Fld.rho_next]
    ++ condEvents opts.correct_currents [Ev.correctCurrents]
    ++ [Ev.fieldPush opts.ptcl_feedback]
    ++ [Ev.spect2interp Fld.E, Ev.spect2interp Fld.B] )

/-- The timestep loop of `Simulation.step`, run over the list of loop
indices (`List.range N` in the caller). -/
def runSteps (opts : StepOpts) (N : ℕ) : List ℕ → SimState → SimState × List Ev
  | [], st => (st, [])
  | i :: is, st =>
      ((runSteps opts N is (oneStep opts i N st).1).1,
       (oneStep opts i N st).2 ++ (runSteps opts N is (oneStep opts i N st).1).2)

/-- The error raised by `Simulation.step` when `moving_window` is true but
no moving window is attached (an `AttributeError` in the Python source; the
spec calls it `ConfigurationError`). -/
inductive StepError
  | configurationError
deriving DecidableEq

/-- `Simulation.step(N, ...)` (fbpic/main.py lines 111-220): check the
moving-window precondition once up front, then run the N-iteration loop.
Returns the outcome, the final scalar state, and the trace of collaborator
calls; on error the state is returned unchanged with an empty trace. -/
def Simulation.step (st : SimState) (N : ℕ) (opts : StepOpts) :
    Except StepError Unit × SimState × List Ev :=
  if opts.moving_window = true ∧ st.moving_win = none then
    (Except.error StepError.configurationError, st, [])
  else
    let p := runSteps opts N (List.range N) st
    (Except.ok (), p.1, p.2)

/-! ### The constructor `Simulation.__init__` (fbpic/main.py lines 26-107) -/

/-- The constructor arguments of one `Particles(...)` call: charge, mass,
peak density, particle counts, loading bounds, theta count, timestep and
the density function (not inspected by the driver), recorded by an identifier. -/
structure SpeciesCfg where
  q : ℚ
  m : ℚ
  n : ℚ
  Npz : ℕ
  zmin : ℚ
  zmax : ℚ
  Npr : ℕ
  rmin : ℚ
  rmax : ℚ
  Nptheta : ℕ
  dt : ℚ
  dens_func : Option ℕ
deriving DecidableEq

/-- Failure of construction: the spec's `GridAlignmentError` (in the Python
source, the uncaught numpy error from `adapt_to_grid` on an empty
selection). -/
inductive InitError
  | gridAlignmentError
deriving DecidableEq

/-- `Simulation.__init__` (fbpic/main.py lines 26-107).  The `Fields`
object is a collaborator: its interpolation grids `fld.interp[0].z` and
`fld.interp[0].r` are taken as the inputs `zgrid` and `rgrid`.  The
constructor aligns the loading bounds with `adapt_to_grid`, builds the
electron and ion species, sets `time = 0`, `iteration = 0` and an empty
diagnostics list, and performs the initial charge deposition
(`deposit 'rho'` per species, `divide_by_volume('rho')`,
`interp2spect('rho_prev')`), recorded as a trace. -/
def Simulation.init (zgrid rgrid : List ℚ) (dt : ℚ)
    (p_zmin p_zmax p_rmin p_rmax : ℚ) (p_nz p_nr p_nt : ℕ) (n_e : ℚ)
    (dens_func : Option ℕ) :
    Except InitError (SimState × List SpeciesCfg × List Ev) :=
  match adapt_to_grid zgrid p_zmin p_zmax p_nz with
  | none => Except.error InitError.gridAlignmentError
  | some (zmin, zmax, Npz) =>
    match adapt_to_grid rgrid p_rmin p_rmax p_nr with
    | none => Except.error InitError.gridAlignmentError
    | some (rmin, rmax, Npr) =>
        let ptcl : List SpeciesCfg :=
          [ { q := -scipy_constants.e, m := scipy_constants.m_e, n := n_e,
              Npz := Npz, zmin := zmin, zmax := zmax,
              Npr := Npr, rmin := rmin, rmax := rmax,
              Nptheta := p_nt, dt := dt, dens_func := dens_func },
            { q := scipy_constants.e, m := scipy_constants.m_p, n := n_e,
              Npz := Npz, zmin := zmin, zmax := zmax,
              Npr := Npr, rmin := rmin, rmax := rmax,
              Nptheta := p_nt, dt := dt, dens_func := dens_func } ]
        let st : SimState :=
          { dt := dt, p_nz := p_nz, time := 0, iteration := 0,
            nspecies := ptcl.length, diags := [], moving_win := none }
        let evs :=
          (List.range ptcl.length).map (fun s => Ev.deposit s Fld.rho)
          ++ [Ev.divideByVolume Fld.rho, Ev.interp2spect Fld.rho_prev]
        Except.ok (st, ptcl, evs)

/-! ## Helper lemmas -/

theorem if_lt_eq_max (a t : ℚ) : (if a < t then t else a) = max a t := by
  rcases lt_or_le a t with h | h
  · simp [h, max_eq_right h.le]
  · simp [not_lt.mpr h, max_eq_left h]

theorem if_gt_eq_min (b t : ℚ) : (if b > t then t else b) = min b t := by
  rcases lt_or_le t b with h | h
  · simp [h, min_eq_right h.le]
  · simp [not_lt.mpr h, min_eq_left h]

theorem loadBounds_eq_none (dx : ℚ) (p : ℕ) (l : List ℚ) :
    loadBounds dx p l = none ↔ l = [] := by
  cases l <;> simp [loadBounds]

/-! ## Claim theorems -/

/-- C4: for a monotonically increasing, evenly spaced grid, `adapt_to_grid`
clamps `p_xmin` up to `min(x) - dx/2` and `p_xmax` down to `max(x) + dx/2`,
selects the grid points strictly between the clamped bounds, and returns
`(min(selected) - dx/2, max(selected) + dx/2, count(selected) * p_nx)`.
On the grid `[0,1,...,9]`, bounds `(-0.3, 9.4)` with 2 particles per cell
give `(-0.5, 9.5, 20)`, and bounds `(-10, 20)` with 3 particles per cell
give `(-0.5, 9.5, 30)`. -/
theorem adapt_to_grid_clamp_select (x0 x1 : ℚ) (rest : List ℚ) (a b : ℚ)
    (p : ℕ) (y : ℚ) (ys : List ℚ)
    (h : (x0 :: x1 :: rest).filter (fun xi => decide
          (max a (lmin x0 (x1 :: rest) - (x1 - x0) / 2) < xi ∧
           xi < min b (lmax x0 (x1 :: rest) + (x1 - x0) / 2))) = y :: ys) :
    adapt_to_grid (x0 :: x1 :: rest) a b p =
      some (lmin y ys - (x1 - x0) / 2, lmax y ys + (x1 - x0) / 2,
            (ys.length + 1) * p) ∧
    adapt_to_grid [0,1,2,3,4,5,6,7,8,9] (-3/10) (47/5) 2 =
      some (-1/2, 19/2, 20) ∧
    adapt_to_grid [0,1,2,3,4,5,6,7,8,9] (-10) 20 3 =
      some (-1/2, 19/2, 30) := by
  refine ⟨?_, ?_, ?_⟩
  · simp only [adapt_to_grid, if_lt_eq_max, if_gt_eq_min]
    rw [h]
    simp [loadBounds]
  · norm_num [adapt_to_grid, loadBounds, lmin, lmax, List.filter_cons,
      min_def, max_def]
  · norm_num [adapt_to_grid, loadBounds, lmin, lmax, List.filter_cons,
      min_def, max_def]

theorem adapt_to_grid_clamp_select_witness :
    adapt_to_grid [(0:ℚ), 1] (-3/10) (7/5) 2 = some (-1/2, 3/2, 4) := by
  have h := (adapt_to_grid_clamp_select 0 1 [] (-3/10) (7/5) 2 0 [1] (by
    norm_num [List.filter_cons, lmin, lmax, min_def, max_def])).1
  rw [h]
  norm_num [lmin, lmax]

/-- C5: `adapt_to_grid` returns no value exactly when no grid point lies
strictly inside the (possibly clamped) requested interval, and during
construction this failure is fatal: `Simulation.init` fails with
`GridAlignmentError`. -/
theorem adapt_to_grid_empty_selection :
    (∀ (x0 x1 : ℚ) (rest : List ℚ) (a b : ℚ) (p : ℕ),
        adapt_to_grid (x0 :: x1 :: rest) a b p = none ↔
        (x0 :: x1 :: rest).filter (fun xi => decide
          (max a (lmin x0 (x1 :: rest) - (x1 - x0) / 2) < xi ∧
           xi < min b (lmax x0 (x1 :: rest) + (x1 - x0) / 2))) = []) ∧
    (∀ (zgrid rgrid : List ℚ) (dt p_zmin p_zmax p_rmin p_rmax : ℚ)
        (p_nz p_nr p_nt : ℕ) (n_e : ℚ) (dens_func : Option ℕ),
        adapt_to_grid zgrid p_zmin p_zmax p_nz = none →
        Simulation.init zgrid rgrid dt p_zmin p_zmax p_rmin p_rmax
          p_nz p_nr p_nt n_e dens_func =
          Except.error InitError.gridAlignmentError) := by
  constructor
  · intro x0 x1 rest a b p
    simp only [adapt_to_grid, if_lt_eq_max, if_gt_eq_min]
    exact loadBounds_eq_none _ _ _
  · intro zgrid rgrid dt p_zmin p_zmax p_rmin p_rmax p_nz p_nr p_nt n_e
      dens_func hz
    simp [Simulation.init, hz]

theorem adapt_to_grid_empty_selection_witness :
    adapt_to_grid [(0:ℚ), 1] 4 4 2 = none ∧
    Simulation.init [(0:ℚ), 1] [0, 1] 1 4 4 0 1 1 1 1 1 none =
      Except.error InitError.gridAlignmentError := by
  constructor
  · exact (adapt_to_grid_empty_selection.1 0 1 [] 4 4 2).mpr (by
      norm_num [List.filter_cons, lmin, lmax, min_def, max_def])
  · exact adapt_to_grid_empty_selection.2 [0, 1] [0, 1] 1 4 4 0 1 1 1 1 1
      none (by
      norm_num [adapt_to_grid, loadBounds, lmin, lmax, List.filter_cons,
        min_def, max_def])

theorem adapt_to_grid_eq (x0 x1 : ℚ) (rest : List ℚ) (a b : ℚ) (p : ℕ) :
    adapt_to_grid (x0 :: x1 :: rest) a b p =
      loadBounds (x1 - x0) p ((x0 :: x1 :: rest).filter (fun xi =>
        decide ((if a < lmin x0 (x1 :: rest) - (x1 - x0) / 2
                 then lmin x0 (x1 :: rest) - (x1 - x0) / 2 else a) < xi ∧
                xi < (if b > lmax x0 (x1 :: rest) + (x1 - x0) / 2
                      then lmax x0 (x1 :: rest) + (x1 - x0) / 2 else b)))) :=
  rfl

theorem mem_of_filter_interval (x : List ℚ) (qa qb : ℚ) (y : ℚ) (ys : List ℚ)
    (hld : x.filter (fun xi => decide (qa < xi ∧ xi < qb)) = y :: ys) :
    ∀ z ∈ y :: ys, z ∈ x ∧ qa < z ∧ z < qb := by
  intro z hz
  rw [← hld] at hz
  have h2 := List.mem_filter.mp hz
  refine ⟨h2.1, ?_⟩
  simpa using h2.2

/-- On a grid whose points are pairwise at least `dx` apart, re-filtering
by the open interval half a cell beyond the extreme selected points
recovers exactly the original selection. -/
theorem filter_interval_stable (x : List ℚ) (dx qa qb : ℚ) (y : ℚ)
    (ys : List ℚ) (hdx : 0 < dx)
    (hgap : ∀ u ∈ x, ∀ v ∈ x, u < v → u + dx ≤ v)
    (hld : x.filter (fun xi => decide (qa < xi ∧ xi < qb)) = y :: ys) :
    x.filter (fun xi =>
      decide (lmin y ys - dx / 2 < xi ∧ xi < lmax y ys + dx / 2)) = y :: ys := by
  have hmem := mem_of_filter_interval x qa qb y ys hld
  have hμ := hmem _ (lmin_mem y ys)
  have hν := hmem _ (lmax_mem y ys)
  have key : ∀ z ∈ x,
      (decide (lmin y ys - dx / 2 < z ∧ z < lmax y ys + dx / 2) : Bool)
        = decide (qa < z ∧ z < qb) := by
    intro z hzx
    apply decide_eq_decide.mpr
    constructor
    · rintro ⟨h1, h2⟩
      constructor
      · by_contra hle
        push_neg at hle
        have hzμ : z < lmin y ys := lt_of_le_of_lt hle hμ.2.1
        have := hgap z hzx _ hμ.1 hzμ
        linarith
      · by_contra hle
        push_neg at hle
        have hνz : lmax y ys < z := lt_of_lt_of_le hν.2.2 hle
        have := hgap _ hν.1 z hzx hνz
        linarith
    · rintro ⟨h1, h2⟩
      have hzsel : z ∈ y :: ys := by
        rw [← hld]
        exact List.mem_filter.mpr ⟨hzx, by simp [h1, h2]⟩
      have hμz := lmin_le_mem' y ys z hzsel
      have hzν := mem_le_lmax' y ys z hzsel
      constructor <;> linarith
  exact (List.filter_congr key).trans hld

/-- C7: `adapt_to_grid` is a pure, deterministic function — two calls with
identical inputs yield identical outputs — and on an evenly spaced
increasing grid it is idempotent: feeding the returned
`(adjustedMin, adjustedMax)` back in with the same grid and
particles-per-cell returns the same `(adjustedMin, adjustedMax,
particleCount)`. -/
theorem adapt_to_grid_idempotent (x0 x1 : ℚ) (rest : List ℚ)
    (hdx : 0 < x1 - x0)
    (hgap : ∀ u ∈ x0 :: x1 :: rest, ∀ v ∈ x0 :: x1 :: rest,
      u < v → u + (x1 - x0) ≤ v) :
    (∀ (a b : ℚ) (p : ℕ),
        adapt_to_grid (x0 :: x1 :: rest) a b p =
        adapt_to_grid (x0 :: x1 :: rest) a b p) ∧
    (∀ (a b m M : ℚ) (p c : ℕ),
        adapt_to_grid (x0 :: x1 :: rest) a b p = some (m, M, c) →
        adapt_to_grid (x0 :: x1 :: rest) m M p = some (m, M, c)) := by
  constructor
  · intro a b p
    rfl
  · intro a b m M p c h
    rw [adapt_to_grid_eq] at h
    set xmn := lmin x0 (x1 :: rest) with hxmn
    set xmx := lmax x0 (x1 :: rest) with hxmx
    set dx := x1 - x0 with hdxdef
    set qa := if a < xmn - dx / 2 then xmn - dx / 2 else a with hqa
    set qb := if b > xmx + dx / 2 then xmx + dx / 2 else b with hqb
    cases hld : (x0 :: x1 :: rest).filter
        (fun xi => decide (qa < xi ∧ xi < qb)) with
    | nil =>
        rw [hld] at h
        simp [loadBounds] at h
    | cons y ys =>
        rw [hld] at h
        simp only [loadBounds, Option.some.injEq, Prod.mk.injEq] at h
        obtain ⟨hm, hM, hc⟩ := h
        have hmem := mem_of_filter_interval _ qa qb y ys hld
        have hμ := hmem _ (lmin_mem y ys)
        have hν := hmem _ (lmax_mem y ys)
        have hxmn_le : xmn ≤ lmin y ys := lmin_le_mem' x0 (x1 :: rest) _ hμ.1
        have hle_xmx : lmax y ys ≤ xmx := mem_le_lmax' x0 (x1 :: rest) _ hν.1
        rw [adapt_to_grid_eq]
        rw [if_neg (by rw [← hm]; push_neg; linarith)]
        rw [if_neg (by rw [← hM]; push_neg; linarith)]
        rw [← hm, ← hM, ← hc]
        rw [filter_interval_stable (x0 :: x1 :: rest) dx qa qb y ys hdx hgap hld]
        simp [loadBounds]

theorem adapt_to_grid_idempotent_witness :
    adapt_to_grid [(0:ℚ), 1] (-1/2) (3/2) 2 = some (-1/2, 3/2, 4) := by
  have hg : ∀ u ∈ [(0:ℚ), 1], ∀ v ∈ [(0:ℚ), 1], u < v → u + ((1:ℚ) - 0) ≤ v := by
    intro u hu v hv huv
    fin_cases hu <;> fin_cases hv <;> norm_num at huv ⊢
  exact (adapt_to_grid_idempotent 0 1 [] (by norm_num) hg).2 (-3/10) (7/5)
    (-1/2) (3/2) 2 4 (by
      norm_num [adapt_to_grid, loadBounds, lmin, lmax, List.filter_cons,
        min_def, max_def])

theorem runSteps_dt (opts : StepOpts) (N : ℕ) (is : List ℕ) :
    ∀ st : SimState, (runSteps opts N is st).1.dt = st.dt := by
  induction is with
  | nil => intro st; rfl
  | cons i is ih =>
      intro st
      simp only [runSteps]
      exact ih _

theorem runSteps_iteration (opts : StepOpts) (N : ℕ) (is : List ℕ) :
    ∀ st : SimState,
      (runSteps opts N is st).1.iteration = st.iteration + is.length := by
  induction is with
  | nil => intro st; simp [runSteps]
  | cons i is ih =>
      intro st
      simp only [runSteps, List.length_cons]
      rw [ih]
      show st.iteration + 1 + is.length = st.iteration + (is.length + 1)
      omega

theorem runSteps_time (opts : StepOpts) (N : ℕ) (is : List ℕ) :
    ∀ st : SimState,
      (runSteps opts N is st).1.time = st.time + is.length * st.dt := by
  induction is with
  | nil => intro st; simp [runSteps]
  | cons i is ih =>
      intro st
      simp only [runSteps, List.length_cons]
      rw [ih]
      push_cast
      show st.time + st.dt + (is.length : ℚ) * st.dt
          = st.time + ((is.length : ℚ) + 1) * st.dt
      ring

/-- C1: every executed timestep performs its collaborator calls in exactly
the mandated order: diagnostics writes at the current iteration, progress
report, moving-window move (if enabled), per-species gather, momentum push
(if enabled), first position half-push (if enabled), erase/deposit/
normalize of J, damping of J (if moving window), J to spectral space,
J filtering (if enabled), second position half-push (if enabled),
erase/deposit/normalize of rho, damping of rho (if moving window), rho to
spectral space as rho_next, rho_next filtering (if enabled), current
correction (if enabled), field push honoring `ptcl_feedback`, and E and B
back to the interpolation grid. -/
theorem oneStep_trace (opts : StepOpts) (i N : ℕ) (st : SimState) :
    (oneStep opts i N st).2 =
      st.diags.map (fun d => Ev.diagWrite d st.iteration)
      ++ [Ev.progress i N]
      ++ (if opts.moving_window then [Ev.mwMove] else [])
      ++ (List.range st.nspecies).map Ev.gather
      ++ (if opts.move_momenta
          then (List.range st.nspecies).map Ev.pushP else [])
      ++ (if opts.move_positions
          then (List.range st.nspecies).map Ev.halfPushX else [])
      ++ [Ev.erase Fld.J]
      ++ (List.range st.nspecies).map (fun s => Ev.deposit s Fld.J)
      ++ [Ev.divideByVolume Fld.J]
      ++ (if opts.moving_window then [Ev.mwDamp Fld.J] else [])
      ++ [Ev.interp2spect Fld.J]
      ++ (if opts.filter_currents then [Ev.filterSpect Fld.J] else [])
      ++ (if opts.move_positions
          then (List.range st.nspecies).map Ev.halfPushX else [])
      ++ [Ev.erase Fld.rho]
      ++ (List.range st.nspecies).map (fun s => Ev.deposit s Fld.rho)
      ++ [Ev.divideByVolume Fld.rho]
      ++ (if opts.moving_window then [Ev.mwDamp Fld.rho] else [])
      ++ [Ev.interp2spect Fld.rho_next]
      ++ (if opts.filter_currents then [Ev.filterSpect Fld.rho_next] else [])
      ++ (if opts.correct_currents then [Ev.correctCurrents] else [])
      ++ [Ev.fieldPush opts.ptcl_feedback]
      ++ [Ev.spect2interp Fld.E, Ev.spect2interp Fld.B] := by
  simp [oneStep, condEvents, forSpecies]

/-- C2: for every N ≥ 0, a successful `step(N)` call increases `iteration`
by exactly N and re-establishes `time = iteration * dt`; with a
non-negative timestep both `time` and `iteration` are monotonically
non-decreasing across the call. -/
theorem step_time_iteration (st : SimState) (N : ℕ) (opts : StepOpts)
    (hok : ¬ (opts.moving_window = true ∧ st.moving_win = none))
    (hinv : st.time = st.iteration * st.dt)
    (hdt : 0 ≤ st.dt) :
    (Simulation.step st N opts).1 = Except.ok () ∧
    (Simulation.step st N opts).2.1.iteration = st.iteration + N ∧
    (Simulation.step st N opts).2.1.time =
      (Simulation.step st N opts).2.1.iteration
        * (Simulation.step st N opts).2.1.dt ∧
    st.iteration ≤ (Simulation.step st N opts).2.1.iteration ∧
    st.time ≤ (Simulation.step st N opts).2.1.time := by
  have hstep : Simulation.step st N opts
      = (Except.ok (), (runSteps opts N (List.range N) st).1,
         (runSteps opts N (List.range N) st).2) := by
    simp [Simulation.step, hok]
  rw [hstep]
  refine ⟨rfl, ?_, ?_, ?_, ?_⟩
  · simp [runSteps_iteration]
  · rw [runSteps_time, runSteps_iteration, runSteps_dt, hinv]
    push_cast
    ring
  · rw [runSteps_iteration]
    omega
  · rw [runSteps_time]
    have : 0 ≤ ((List.range N).length : ℚ) * st.dt := by
      apply mul_nonneg _ hdt
      exact_mod_cast Nat.zero_le _
    linarith

theorem step_time_iteration_witness :
    (Simulation.step ⟨1, 2, 0, 0, 2, [], some ()⟩ 3 {}).1 = Except.ok () ∧
    (Simulation.step ⟨1, 2, 0, 0, 2, [], some ()⟩ 3 {}).2.1.iteration
      = 0 + 3 ∧
    (Simulation.step ⟨1, 2, 0, 0, 2, [], some ()⟩ 3 {}).2.1.time =
      (Simulation.step ⟨1, 2, 0, 0, 2, [], some ()⟩ 3 {}).2.1.iteration
        * (Simulation.step ⟨1, 2, 0, 0, 2, [], some ()⟩ 3 {}).2.1.dt ∧
    (0 : ℕ) ≤ (Simulation.step ⟨1, 2, 0, 0, 2, [], some ()⟩ 3 {}).2.1.iteration ∧
    (0 : ℚ) ≤ (Simulation.step ⟨1, 2, 0, 0, 2, [], some ()⟩ 3 {}).2.1.time :=
  step_time_iteration ⟨1, 2, 0, 0, 2, [], some ()⟩ 3 {}
    (by simp) (by norm_num) (by norm_num)

/-- C3: calling `step` with `moving_window` true while no moving window is
attached fails with the configuration error before any state mutation:
the state is returned unchanged and no collaborator call is made, for any
requested number of timesteps N. -/
theorem step_missing_window (st : SimState) (N : ℕ) (opts : StepOpts)
    (hmw : opts.moving_window = true) (habs : st.moving_win = none) :
    Simulation.step st N opts =
      (Except.error StepError.configurationError, st, []) := by
  simp [Simulation.step, hmw, habs]

theorem step_missing_window_witness :
    Simulation.step ⟨1, 2, 0, 0, 2, [], none⟩ 5 {} =
      (Except.error StepError.configurationError,
       ⟨1, 2, 0, 0, 2, [], none⟩, []) :=
  step_missing_window ⟨1, 2, 0, 0, 2, [], none⟩ 5 {} rfl rfl

/-- C9: `step(0, ...)` executes no sub-steps and leaves the state
unchanged with an empty trace, yet still performs the moving-window
precondition check first: with `moving_window` true and no attached window
it fails even for N = 0. -/
theorem step_zero (st : SimState) (opts : StepOpts) :
    Simulation.step st 0 opts =
      (if opts.moving_window = true ∧ st.moving_win = none
       then (Except.error StepError.configurationError, st, [])
       else (Except.ok (), st, [])) := by
  by_cases h : opts.moving_window = true ∧ st.moving_win = none
  · simp [Simulation.step, h]
  · simp [Simulation.step, h, runSteps]

theorem count_condEvents (b : Bool) (l : List Ev) (ev : Ev) :
    (condEvents b l).count ev = if b then l.count ev else 0 := by
  cases b <;> simp [condEvents]

theorem count_forSpecies (n : ℕ) (f : ℕ → Ev) (ev : Ev)
    (h : ∀ s, ¬ f s = ev) : (forSpecies n f).count ev = 0 := by
  apply List.count_eq_zero.mpr
  intro hmem
  rcases List.mem_map.mp hmem with ⟨s, _, hs⟩
  exact h s hs

theorem count_diagWrites (ds : List ℕ) (it : ℕ) (ev : Ev)
    (h : ∀ d i, ¬ Ev.diagWrite d i = ev) :
    (ds.map (fun d => Ev.diagWrite d it)).count ev = 0 := by
  apply List.count_eq_zero.mpr
  intro hmem
  rcases List.mem_map.mp hmem with ⟨d, _, hd⟩
  exact h d it hd

/-- C6: within each step the driver normalizes deposits by cell volume
once per deposit phase: the trace of a step splits around exactly one
`divide_by_volume('J')` call and exactly one `divide_by_volume('rho')`
call, every species' J deposit occurring before the former and every
species' rho deposit after it and before the latter. -/
theorem step_normalizes_deposits (opts : StepOpts) (i N : ℕ) (st : SimState) :
    ∃ A B C : List Ev,
      (oneStep opts i N st).2
        = A ++ Ev.divideByVolume Fld.J
            :: (B ++ Ev.divideByVolume Fld.rho :: C) ∧
      (∀ s < st.nspecies, Ev.deposit s Fld.J ∈ A) ∧
      (∀ s < st.nspecies, Ev.deposit s Fld.rho ∈ B) ∧
      ((oneStep opts i N st).2.count (Ev.divideByVolume Fld.J) = 1) ∧
      ((oneStep opts i N st).2.count (Ev.divideByVolume Fld.rho) = 1) := by
  refine ⟨st.diags.map (fun d => Ev.diagWrite d st.iteration)
      ++ [Ev.progress i N]
      ++ condEvents opts.moving_window [Ev.mwMove]
      ++ forSpecies st.nspecies Ev.gather
      ++ condEvents opts.move_momenta (forSpecies st.nspecies Ev.pushP)
      ++ condEvents opts.move_positions (forSpecies st.nspecies Ev.halfPushX)
      ++ [Ev.erase Fld.J]
      ++ forSpecies st.nspecies (fun s => Ev.deposit s Fld.J),
    condEvents opts.moving_window [Ev.mwDamp Fld.J]
      ++ [Ev.interp2spect Fld.J]
      ++ condEvents opts.filter_currents [Ev.filterSpect Fld.J]
      ++ condEvents opts.move_positions (forSpecies st.nspecies Ev.halfPushX)
      ++ [Ev.erase Fld.rho]
      ++ forSpecies st.nspecies (fun s => Ev.deposit s Fld.rho),
    condEvents opts.moving_window [Ev.mwDamp Fld.rho]
      ++ [Ev.interp2spect Fld.rho_next]
      ++ condEvents opts.filter_currents [Ev.filterSpect Fld.rho_next]
      ++ condEvents opts.correct_currents [Ev.correctCurrents]
      ++ [Ev.fieldPush opts.ptcl_feedback]
      ++ [Ev.spect2interp Fld.E, Ev.spect2interp Fld.B],
    ?_, ?_, ?_, ?_, ?_⟩
  · simp [oneStep]
  · intro s hs
    exact List.mem_append_right _
      (List.mem_map.mpr ⟨s, List.mem_range.mpr hs, rfl⟩)
  · intro s hs
    exact List.mem_append_right _
      (List.mem_map.mpr ⟨s, List.mem_range.mpr hs, rfl⟩)
  · simp [oneStep, List.count_append, count_condEvents, count_forSpecies,
      count_diagWrites, List.count_cons, List.count_nil]
  · simp [oneStep, List.count_append, count_condEvents, count_forSpecies,
      count_diagWrites, List.count_cons, List.count_nil]

/-- C8: after a successful construction the driver has performed the
initial charge deposition for every species at t = 0, normalized it by
cell volume, and transformed it to the spectral representation stored as
`rho_prev`; the new state has `time = 0` and `iteration = 0`. -/
theorem init_initial_deposition (zgrid rgrid : List ℚ) (dt : ℚ)
    (p_zmin p_zmax p_rmin p_rmax : ℚ) (p_nz p_nr p_nt : ℕ) (n_e : ℚ)
    (dens_func : Option ℕ) (st : SimState) (ptcl : List SpeciesCfg)
    (evs : List Ev)
    (h : Simulation.init zgrid rgrid dt p_zmin p_zmax p_rmin p_rmax
        p_nz p_nr p_nt n_e dens_func = Except.ok (st, ptcl, evs)) :
    st.time = 0 ∧ st.iteration = 0 ∧
    evs = [Ev.deposit 0 Fld.rho, Ev.deposit 1 Fld.rho,
           Ev.divideByVolume Fld.rho, Ev.interp2spect Fld.rho_prev] := by
  cases hz : adapt_to_grid zgrid p_zmin p_zmax p_nz with
  | none => simp [Simulation.init, hz] at h
  | some vz =>
    obtain ⟨zmin, zmax, Npz⟩ := vz
    cases hr : adapt_to_grid rgrid p_rmin p_rmax p_nr with
    | none => simp [Simulation.init, hz, hr] at h
    | some vr =>
      obtain ⟨rmin, rmax, Npr⟩ := vr
      simp only [Simulation.init, hz, hr, Except.ok.injEq,
        Prod.mk.injEq] at h
      obtain ⟨hst, hptcl, hevs⟩ := h
      refine ⟨?_, ?_, ?_⟩
      · rw [← hst]
      · rw [← hst]
      · rw [← hevs]
        rfl

theorem init_initial_deposition_witness :
    (⟨1, 1, 0, 0, 2, [], none⟩ : SimState).time = 0 ∧
    (⟨1, 1, 0, 0, 2, [], none⟩ : SimState).iteration = 0 ∧
    [Ev.deposit 0 Fld.rho, Ev.deposit 1 Fld.rho,
     Ev.divideByVolume Fld.rho, Ev.interp2spect Fld.rho_prev]
      = [Ev.deposit 0 Fld.rho, Ev.deposit 1 Fld.rho,
         Ev.divideByVolume Fld.rho, Ev.interp2spect Fld.rho_prev] :=
  init_initial_deposition [0, 1] [0, 1] 1 (-1) 2 (-1) 2 1 1 1 1 none
    ⟨1, 1, 0, 0, 2, [], none⟩
    [ { q := -scipy_constants.e, m := scipy_constants.m_e, n := 1,
        Npz := 2, zmin := -1/2, zmax := 3/2,
        Npr := 2, rmin := -1/2, rmax := 3/2,
        Nptheta := 1, dt := 1, dens_func := none },
      { q := scipy_constants.e, m := scipy_constants.m_p, n := 1,
        Npz := 2, zmin := -1/2, zmax := 3/2,
        Npr := 2, rmin := -1/2, rmax := 3/2,
        Nptheta := 1, dt := 1, dens_func := none } ]
    [Ev.deposit 0 Fld.rho, Ev.deposit 1 Fld.rho,
     Ev.divideByVolume Fld.rho, Ev.interp2spect Fld.rho_prev]
    (by norm_num [Simulation.init, adapt_to_grid, loadBounds, lmin, lmax,
      List.filter_cons, min_def, max_def, List.range_succ])

/-- C10: the constructor always creates exactly two species, in fixed
order: electrons (charge `-e`, electron mass) followed by ions (charge
`+e`, proton mass), both loaded over the identical grid-aligned region
with identical per-direction particle counts, peak density and density
function. -/
theorem init_two_species (zgrid rgrid : List ℚ) (dt : ℚ)
    (p_zmin p_zmax p_rmin p_rmax : ℚ) (p_nz p_nr p_nt : ℕ) (n_e : ℚ)
    (dens_func : Option ℕ) (st : SimState) (ptcl : List SpeciesCfg)
    (evs : List Ev)
    (h : Simulation.init zgrid rgrid dt p_zmin p_zmax p_rmin p_rmax
        p_nz p_nr p_nt n_e dens_func = Except.ok (st, ptcl, evs)) :
    ∃ (zmin zmax : ℚ) (Npz : ℕ) (rmin rmax : ℚ) (Npr : ℕ),
      adapt_to_grid zgrid p_zmin p_zmax p_nz = some (zmin, zmax, Npz) ∧
      adapt_to_grid rgrid p_rmin p_rmax p_nr = some (rmin, rmax, Npr) ∧
      ptcl =
        [ { q := -scipy_constants.e, m := scipy_constants.m_e, n := n_e,
            Npz := Npz, zmin := zmin, zmax := zmax,
            Npr := Npr, rmin := rmin, rmax := rmax,
            Nptheta := p_nt, dt := dt, dens_func := dens_func },
          { q := scipy_constants.e, m := scipy_constants.m_p, n := n_e,
            Npz := Npz, zmin := zmin, zmax := zmax,
            Npr := Npr, rmin := rmin, rmax := rmax,
            Nptheta := p_nt, dt := dt, dens_func := dens_func } ] ∧
      st.nspecies = 2 := by
  cases hz : adapt_to_grid zgrid p_zmin p_zmax p_nz with
  | none => simp [Simulation.init, hz] at h
  | some vz =>
    obtain ⟨zmin, zmax, Npz⟩ := vz
    cases hr : adapt_to_grid rgrid p_rmin p_rmax p_nr with
    | none => simp [Simulation.init, hz, hr] at h
    | some vr =>
      obtain ⟨rmin, rmax, Npr⟩ := vr
      simp only [Simulation.init, hz, hr, Except.ok.injEq,
        Prod.mk.injEq] at h
      obtain ⟨hst, hptcl, hevs⟩ := h
      refine ⟨zmin, zmax, Npz, rmin, rmax, Npr, rfl, rfl,
        hptcl.symm, ?_⟩
      rw [← hst]
      rfl

theorem init_two_species_witness :
    ∃ (zmin zmax : ℚ) (Npz : ℕ) (rmin rmax : ℚ) (Npr : ℕ),
      adapt_to_grid [(0:ℚ), 1] (-1) 2 1 = some (zmin, zmax, Npz) ∧
      adapt_to_grid [(0:ℚ), 1] (-1) 2 1 = some (rmin, rmax, Npr) ∧
      [ { q := -scipy_constants.e, m := scipy_constants.m_e, n := 1,
          Npz := 2, zmin := -1/2, zmax := 3/2,
          Npr := 2, rmin := -1/2, rmax := 3/2,
          Nptheta := 1, dt := 1, dens_func := none },
        { q := scipy_constants.e, m := scipy_constants.m_p, n := 1,
          Npz := 2, zmin := -1/2, zmax := 3/2,
          Npr := 2, rmin := -1/2, rmax := 3/2,
          Nptheta := 1, dt := 1, dens_func := none } ] =
        ([ { q := -scipy_constants.e, m := scipy_constants.m_e, n := 1,
             Npz := Npz, zmin := zmin, zmax := zmax,
             Npr := Npr, rmin := rmin, rmax := rmax,
             Nptheta := 1, dt := 1, dens_func := none },
           { q := scipy_constants.e, m := scipy_constants.m_p, n := 1,
             Npz := Npz, zmin := zmin, zmax := zmax,
             Npr := Npr, rmin := rmin, rmax := rmax,
             Nptheta := 1, dt := 1, dens_func := none } ] : List SpeciesCfg) ∧
      (⟨1, 1, 0, 0, 2, [], none⟩ : SimState).nspecies = 2 :=
  init_two_species [0, 1] [0, 1] 1 (-1) 2 (-1) 2 1 1 1 1 none
    ⟨1, 1, 0, 0, 2, [], none⟩
    [ { q := -scipy_constants.e, m := scipy_constants.m_e, n := 1,
        Npz := 2, zmin := -1/2, zmax := 3/2,
        Npr := 2, rmin := -1/2, rmax := 3/2,
        Nptheta := 1, dt := 1, dens_func := none },
      { q := scipy_constants.e, m := scipy_constants.m_p, n := 1,
        Npz := 2, zmin := -1/2, zmax := 3/2,
        Npr := 2, rmin := -1/2, rmax := 3/2,
        Nptheta := 1, dt := 1, dens_func := none } ]
    [Ev.deposit 0 Fld.rho, Ev.deposit 1 Fld.rho,
     Ev.divideByVolume Fld.rho, Ev.interp2spect Fld.rho_prev]
    (by norm_num [Simulation.init, adapt_to_grid, loadBounds, lmin, lmax,
      List.filter_cons, min_def, max_def, List.range_succ])
